import Mathlib

/-!
# Verification of `expo-session-capture`

Shallow embedding of the capture engine (`src/captureManager.ts`), the
sampling oracle (`sampler.ts`), and the replay UI's timeline engine
(`findFrameIndexForTimestamp` and the playback loop in `App.jsx`),
together with proofs of the specification's claims about them.

Modelling conventions:
* JavaScript numbers used as millisecond timestamps and counters are
  modelled as `Int`; coordinates, rates and dimensions (which are
  divided) as `ℚ`.
* Strings whose content is only hashed are modelled as lists of their
  character codes (`List Nat`), matching `charCodeAt`.
* `async` methods are split at their unique `await` point into a
  synchronous prefix and a completion step; the awaited result
  (screenshot success/failure, upload success/failure) is passed in
  explicitly.
* Timers (`setInterval`/`setTimeout` handles) are not part of the
  observable state modelled here; the claims under study do not
  mention them.
-/

-- ── Data model (src/types.ts) ───────────────────────────────────────────

/-- A captured screenshot: base64 image plus capture timestamp. -/
structure CapturedFrame where
  image : String
  timestamp : Int
deriving DecidableEq, Repr

instance : Inhabited CapturedFrame := ⟨⟨"", 0⟩⟩

/-- Device pixel dimensions, used to normalise tap coordinates. -/
structure DeviceInfo where
  deviceWidth : ℚ
  deviceHeight : ℚ
deriving DecidableEq, Repr

/-- A tap event.  `normalizedX`/`normalizedY` are optional, mirroring the
TypeScript optional fields (`typeof tap.normalizedX === 'number'`
corresponds to `Option.isSome`). -/
structure TapEvent where
  x : ℚ
  y : ℚ
  normalizedX : Option ℚ
  normalizedY : Option ℚ
  screen : Option String
  timestamp : Int
deriving DecidableEq, Repr

/-- A scroll event with the current vertical offset. -/
structure ScrollEvent where
  offsetY : ℚ
  timestamp : Int
deriving DecidableEq, Repr

/-- A navigation (screen transition) event.  `from`/`to` are renamed
`fromScreen`/`toScreen` (`from` is a Lean keyword). -/
structure NavigationEvent where
  timestamp : Int
  fromScreen : Option String
  toScreen : Option String
  trigger : String
deriving DecidableEq, Repr

/-- Configuration options for the capture manager
(`CaptureManagerOptions` in `src/captureManager.ts`). -/
structure CaptureManagerOptions where
  sessionId : String
  userId : String
  endpointUrl : String
  apiKey : String
  maxFrames : Int
  throttleMs : Int
  imageQuality : ℚ
  imageWidth : ℚ
  imageHeight : ℚ
  device : String
  appVersion : String
  flushIntervalMs : Int
  periodicCaptureMs : Int
  idleTimeoutMs : Int
deriving DecidableEq, Repr

/-- The JSON document POSTed to `{endpointUrl}/ingest`
(`UploadPayload` in `src/types.ts`). -/
structure UploadPayload where
  sessionId : String
  userId : String
  device : String
  appVersion : String
  deviceWidth : Option ℚ
  deviceHeight : Option ℚ
  frames : List CapturedFrame
  taps : List TapEvent
  scrolls : List ScrollEvent
  navigations : List NavigationEvent
deriving DecidableEq, Repr

/-- The mutable fields of `class CaptureManager`
(`src/captureManager.ts:60-77`), minus the timer handles. -/
structure CaptureManager where
  opts : CaptureManagerOptions
  frameCount : Int := 0
  lastCaptureTs : Int := 0
  frames : List CapturedFrame := []
  taps : List TapEvent := []
  scrolls : List ScrollEvent := []
  navigations : List NavigationEvent := []
  deviceInfo : Option DeviceInfo := none
  isActive : Bool := false
  isFlushing : Bool := false
  lastInteractionTs : Int := 0
  isIdle : Bool := false
deriving DecidableEq, Repr

-- ── Flush (src/captureManager.ts:328-375) ───────────────────────────────

/-- The synchronous prefix of `flush()`, up to (not including) the awaited
`fetch`: the two no-op guards, setting `isFlushing`, snapshotting the four
buffers into the payload, and clearing them.  Returns the new state and
`some payload` when an upload is started, `none` when `flush()` was a
no-op. -/
def flushStart (s : CaptureManager) : CaptureManager × Option UploadPayload :=
  if s.frames = [] ∧ s.taps = [] ∧ s.scrolls = [] ∧ s.navigations = [] then
    (s, none)
  else if s.isFlushing then
    (s, none)
  else
    let payload : UploadPayload :=
      { sessionId := s.opts.sessionId
        userId := s.opts.userId
        device := s.opts.device
        appVersion := s.opts.appVersion
        deviceWidth := s.deviceInfo.map DeviceInfo.deviceWidth
        deviceHeight := s.deviceInfo.map DeviceInfo.deviceHeight
        frames := s.frames
        taps := s.taps
        scrolls := s.scrolls
        navigations := s.navigations }
    ({ s with
        isFlushing := true
        frames := []
        taps := []
        scrolls := []
        navigations := [] }, some payload)

/-- The tail of `flush()` after the awaited `fetch` resolves or rejects:
the `catch` swallows a failed upload and the `finally` clears the
in-flight flag in both cases, so the state update does not depend on
`uploadOk`. -/
def flushEnd (s : CaptureManager) (_uploadOk : Bool) : CaptureManager :=
  { s with isFlushing := false }

-- ── Lifecycle (src/captureManager.ts:133-139) ───────────────────────────

/-- `stop()`: mark inactive, stop the timers (not modelled), and invoke
`flush()` fire-and-forget — its synchronous prefix runs before `stop`
returns. -/
def stop (s : CaptureManager) : CaptureManager :=
  (flushStart { s with isActive := false }).1

-- ── Events and idle detection (src/captureManager.ts:185-236) ───────────

/-- `notifyInteraction()`: record the interaction time and leave the idle
state (timer re-arming not modelled). -/
def notifyInteraction (s : CaptureManager) (now : Int) : CaptureManager :=
  { s with lastInteractionTs := now, isIdle := false }

/-- `registerTap(tap)` (`src/captureManager.ts:185-202`).  The branch
structure mirrors `hasNormalizedCoordinates || !this.deviceInfo`:
the event is buffered untouched when it already carries both normalised
coordinates or when no device dimensions are known; otherwise it is
extended with `x / deviceWidth` and `y / deviceHeight`. -/
def registerTap (s : CaptureManager) (tap : TapEvent) (now : Int) :
    CaptureManager :=
  if !s.isActive then s
  else
    let s1 := notifyInteraction s now
    let hasNormalizedCoordinates :=
      tap.normalizedX.isSome && tap.normalizedY.isSome
    match s1.deviceInfo with
    | none => { s1 with taps := s1.taps ++ [tap] }
    | some di =>
        if hasNormalizedCoordinates then
          { s1 with taps := s1.taps ++ [tap] }
        else
          { s1 with taps := s1.taps ++ [{ tap with
              normalizedX := some (tap.x / di.deviceWidth)
              normalizedY := some (tap.y / di.deviceHeight) }] }

/-- `registerScroll(scroll)` (`src/captureManager.ts:205-209`). -/
def registerScroll (s : CaptureManager) (scroll : ScrollEvent) (now : Int) :
    CaptureManager :=
  if !s.isActive then s
  else
    let s1 := notifyInteraction s now
    { s1 with scrolls := s1.scrolls ++ [scroll] }

/-- `registerNavigation(nav)` (`src/captureManager.ts:212-216`). -/
def registerNavigation (s : CaptureManager) (nav : NavigationEvent)
    (now : Int) : CaptureManager :=
  if !s.isActive then s
  else
    let s1 := notifyInteraction s now
    { s1 with navigations := s1.navigations ++ [nav] }

-- ── Capture (src/captureManager.ts:265-317) ─────────────────────────────

/-- `_doCapture(ref, now)` (`src/captureManager.ts:296-317`): record the
timestamp, optimistically increment the frame count, then attempt the
screenshot.  `shot` is the awaited result of `captureRef`: `some base64`
on success, `none` when it threw.  On success the frame is buffered; on
failure the count is decremented and no frame is buffered — the `catch`
swallows the error, so the method resolves normally either way. -/
def doCapture (s : CaptureManager) (now : Int) (shot : Option String) :
    CaptureManager :=
  let s1 := { s with lastCaptureTs := now, frameCount := s.frameCount + 1 }
  match shot with
  | some base64 =>
      { s1 with frames := s1.frames ++ [{ image := base64, timestamp := now }] }
  | none => { s1 with frameCount := s1.frameCount - 1 }

/-- `capture(ref)` (`src/captureManager.ts:265-277`): no-op if inactive;
stop-and-flush if the hard cap is reached; silent no-op within
`throttleMs` of the last capture; otherwise `_doCapture`. -/
def capture (s : CaptureManager) (now : Int) (shot : Option String) :
    CaptureManager :=
  if !s.isActive then s
  else if s.frameCount ≥ s.opts.maxFrames then stop s
  else if now - s.lastCaptureTs < s.opts.throttleMs then s
  else doCapture s now shot

/-- `captureImmediate(ref)` (`src/captureManager.ts:286-294`): like
`capture` but with no throttle check. -/
def captureImmediate (s : CaptureManager) (now : Int) (shot : Option String) :
    CaptureManager :=
  if !s.isActive then s
  else if s.frameCount ≥ s.opts.maxFrames then stop s
  else doCapture s now shot

/-- One observable call in a capture sequence: which method was called,
at what wall-clock time, and whether the screenshot succeeded. -/
inductive CaptureOp where
  | capture (now : Int) (shot : Option String)
  | captureImmediate (now : Int) (shot : Option String)
deriving DecidableEq, Repr

/-- Apply one capture call to the manager state. -/
def runCaptureOp (s : CaptureManager) : CaptureOp → CaptureManager
  | .capture now shot => capture s now shot
  | .captureImmediate now shot => captureImmediate s now shot

/-- Apply a sequence of capture calls, left to right. -/
def runCaptureOps (s : CaptureManager) : List CaptureOp → CaptureManager
  | [] => s
  | op :: ops => runCaptureOps (runCaptureOp s op) ops

-- ── Sampling oracle (sampler.ts) ────────────────────────────────────────

/-- The hash inside `shouldSample`: `Array.from(userId).reduce((acc, char)
=> acc + char.charCodeAt(0), 0)` — a left fold summing the character
codes.  The user id is modelled as its list of character codes. -/
def hashUserId (userId : List Nat) : Nat :=
  userId.foldl (fun acc c => acc + c) 0

/-- `shouldSample(userId, rate)` (`sampler.ts:12-23`). -/
def shouldSample (userId : List Nat) (rate : ℚ) : Bool :=
  if rate ≤ 0 then false
  else if rate ≥ 1 then true
  else decide (((hashUserId userId % 100 : ℕ) : ℚ) / 100 < rate)

-- ── Timeline engine: nearest-frame lookup (App.jsx:192-212) ─────────────

/-- The `while (low < high)` loop of `findFrameIndexForTimestamp`:
`mid = ⌊(low + high) / 2⌋`; move `low` past `mid` when
`frames[mid].timestamp < timestamp`, otherwise pull `high` down to
`mid`.  Every reachable access is in range (`low ≤ mid < high ≤
frames.length - 1`), so `getD` with a default is exact. -/
def lbLoop (frames : List CapturedFrame) (t : Int) (low high : Nat) : Nat :=
  if low < high then
    if (frames.getD ((low + high) / 2) default).timestamp < t then
      lbLoop frames t ((low + high) / 2 + 1) high
    else
      lbLoop frames t low ((low + high) / 2)
  else low
termination_by high - low
decreasing_by
  · omega
  · omega

/-- `findFrameIndexForTimestamp(frames, timestamp)` (`App.jsx:192-212`).
The final reads `frames[currentIdx]` / `frames[prevIdx]` are modelled
with `getElem?`; on an empty list they read a frame that does not exist
(a `TypeError` in JavaScript), modelled as `none`. -/
def findFrameIndexForTimestamp (frames : List CapturedFrame) (t : Int) :
    Option Nat :=
  let low := lbLoop frames t 0 (frames.length - 1)
  let currentIdx := low
  let prevIdx := currentIdx - 1
  match frames[currentIdx]?, frames[prevIdx]? with
  | some cur, some prev =>
      let currentDelta := (cur.timestamp - t).natAbs
      let prevDelta := (prev.timestamp - t).natAbs
      some (if prevDelta ≤ currentDelta then prevIdx else currentIdx)
  | _, _ => none

/-- Modelled from the spec: the "lowest index whose timestamp is `≥ t`"
as a plain scan, `none` when every timestamp is `< t`. -/
def specLeastGeIndex (frames : List CapturedFrame) (t : Int) : Option Nat :=
  match frames with
  | [] => none
  | f :: rest =>
      if t ≤ f.timestamp then some 0
      else (specLeastGeIndex rest t).map (· + 1)

/-- Modelled from the spec: the lower-bound candidate, falling back to
the last index when `t` is past every timestamp. -/
def specLowerBound (frames : List CapturedFrame) (t : Int) : Nat :=
  (specLeastGeIndex frames t).getD (frames.length - 1)

/-- Modelled from the spec: compare the lower-bound candidate with its
immediate predecessor and return whichever timestamp is numerically
closer to `t`, ties resolving to the predecessor. -/
def specNearestIndex (frames : List CapturedFrame) (t : Int) : Nat :=
  let c := specLowerBound frames t
  let p := c - 1
  if ((frames.getD p default).timestamp - t).natAbs ≤
      ((frames.getD c default).timestamp - t).natAbs then p else c

-- ── Timeline engine: playback loop (App.jsx:139-178) ────────────────────

/-- The `while (i + 1 < frames.length && frames[i + 1].timestamp - baseTs
<= elapsed) i++` scan of the playback loop: advance the displayed index
forward over every next frame whose offset from `baseTs` is within the
elapsed virtual time. -/
def advanceIndex (frames : List CapturedFrame) (baseTs : Int) (elapsed : ℚ)
    (i : Nat) : Nat :=
  if i + 1 < frames.length ∧
      (((frames.getD (i + 1) default).timestamp - baseTs : Int) : ℚ) ≤ elapsed
  then advanceIndex frames baseTs elapsed (i + 1)
  else i
termination_by frames.length - i
decreasing_by
  · omega

/-- Outcome of one invocation of the playback `loop()` callback:
the displayed frame index and whether another iteration is scheduled. -/
structure PlaybackResult where
  frameIdx : Nat
  playing : Bool
deriving DecidableEq, Repr

/-- One invocation of `loop()` (`App.jsx:156-175`), started at frame
`startIndex` of `frames` with rate multiplier `rate` at real instant
`startTime`, evaluated at real instant `now`: elapsed virtual time is
`(now - startTime) * rate`; the index advances from `startIndex`; if the
last frame is reached, the index is pinned there and playback stops. -/
def loopStep (frames : List CapturedFrame) (startIndex : Nat) (rate : ℚ)
    (startTime now : ℚ) : PlaybackResult :=
  let baseTs := (frames.getD startIndex default).timestamp
  let elapsed := (now - startTime) * rate
  let i := advanceIndex frames baseTs elapsed startIndex
  if i < frames.length - 1 then ⟨i, true⟩
  else ⟨frames.length - 1, false⟩

-- ── Concrete demonstration states ───────────────────────────────────────

/-- A small, fully concrete configuration for witness instantiations. -/
def demoOpts : CaptureManagerOptions :=
  { sessionId := "sess", userId := "user", endpointUrl := "http://x"
    apiKey := "key", maxFrames := 2, throttleMs := 100, imageQuality := 1
    imageWidth := 100, imageHeight := 100, device := "dev"
    appVersion := "1.0", flushIntervalMs := 1000, periodicCaptureMs := 0
    idleTimeoutMs := 0 }

/-- An active manager holding one buffered frame. -/
def demoFlushState : CaptureManager :=
  { opts := demoOpts, frames := [⟨"img", 5⟩], isActive := true }

-- ── C2: flush no-ops and at-most-one-in-flight ──────────────────────────

/-- C2: `flush()` is a no-op when all four buffers are empty and a no-op
when a flush is already in flight; when a flush does proceed, a second
back-to-back `flush()` issued while the first is pending changes nothing
and starts no second upload, and the first flush's payload carries every
buffered item. -/
theorem C2_flush_noop_and_idempotent :
    (∀ s : CaptureManager,
      s.frames = [] → s.taps = [] → s.scrolls = [] → s.navigations = [] →
      flushStart s = (s, none)) ∧
    (∀ s : CaptureManager, s.isFlushing = true → flushStart s = (s, none)) ∧
    (∀ s : CaptureManager, (flushStart s).2 ≠ none →
      flushStart (flushStart s).1 = ((flushStart s).1, none) ∧
      (flushStart s).2.map UploadPayload.frames = some s.frames ∧
      (flushStart s).2.map UploadPayload.taps = some s.taps ∧
      (flushStart s).2.map UploadPayload.scrolls = some s.scrolls ∧
      (flushStart s).2.map UploadPayload.navigations = some s.navigations) := by
  refine ⟨?_, ?_, ?_⟩
  · intro s h1 h2 h3 h4
    simp [flushStart, h1, h2, h3, h4]
  · intro s h
    by_cases hb : s.frames = [] ∧ s.taps = [] ∧ s.scrolls = [] ∧
        s.navigations = []
    · simp [flushStart, hb.1, hb.2.1, hb.2.2.1, hb.2.2.2]
    · simp only [flushStart]
      rw [if_neg hb, if_pos h]
  · intro s h
    by_cases hb : s.frames = [] ∧ s.taps = [] ∧ s.scrolls = [] ∧
        s.navigations = []
    · exact absurd (by simp [flushStart, hb.1, hb.2.1, hb.2.2.1, hb.2.2.2])
        h
    · by_cases hf : s.isFlushing
      · exact absurd (by simp only [flushStart]; rw [if_neg hb, if_pos hf]) h
      · have hx : ¬(s.isFlushing = true) := by simpa using hf
        refine ⟨?_, ?_, ?_, ?_, ?_⟩ <;>
          simp [flushStart, if_neg hb, if_neg hx]

/-- Witness for C2 at a concrete one-frame state. -/
theorem C2_witness :
    (flushStart demoFlushState).2 ≠ none ∧
    flushStart (flushStart demoFlushState).1 =
      ((flushStart demoFlushState).1, none) := by
  refine ⟨by decide, ?_⟩
  exact (C2_flush_noop_and_idempotent.2.2 demoFlushState (by decide)).1

-- ── C3: flush snapshots, clears, and survives upload failure ────────────

/-- C3: when `flush()` proceeds, the payload is exactly the four buffers
as they stood before the flush; all four buffers are cleared before the
network call starts; the in-flight flag is set during the upload; and
whatever the upload's outcome, the post-`fetch` step only clears the
in-flight flag — it does not restore the cleared buffers and smothers a
failed upload instead of raising it. -/
theorem C3_flush_snapshot_and_failure :
    ∀ s : CaptureManager, (flushStart s).2 ≠ none →
      (flushStart s).2.map UploadPayload.frames = some s.frames ∧
      (flushStart s).2.map UploadPayload.taps = some s.taps ∧
      (flushStart s).2.map UploadPayload.scrolls = some s.scrolls ∧
      (flushStart s).2.map UploadPayload.navigations = some s.navigations ∧
      (flushStart s).1.frames = [] ∧
      (flushStart s).1.taps = [] ∧
      (flushStart s).1.scrolls = [] ∧
      (flushStart s).1.navigations = [] ∧
      (flushStart s).1.isFlushing = true ∧
      (∀ uploadOk : Bool,
        flushEnd (flushStart s).1 uploadOk =
          { (flushStart s).1 with isFlushing := false }) := by
  intro s h
  by_cases hb : s.frames = [] ∧ s.taps = [] ∧ s.scrolls = [] ∧
      s.navigations = []
  · exact absurd (by simp [flushStart, hb.1, hb.2.1, hb.2.2.1, hb.2.2.2]) h
  · by_cases hf : s.isFlushing
    · exact absurd (by simp only [flushStart]; rw [if_neg hb, if_pos hf]) h
    · have hx : ¬(s.isFlushing = true) := by simpa using hf
      refine ⟨?_, ?_, ?_, ?_, ?_, ?_, ?_, ?_, ?_, fun _ => rfl⟩ <;>
        simp [flushStart, if_neg hb, if_neg hx]

/-- Witness for C3 at a concrete one-frame state. -/
theorem C3_witness :
    (flushStart demoFlushState).2 ≠ none ∧
    (flushStart demoFlushState).1.frames = [] ∧
    flushEnd (flushStart demoFlushState).1 false =
      { (flushStart demoFlushState).1 with isFlushing := false } := by
  have h := C3_flush_snapshot_and_failure demoFlushState (by decide)
  exact ⟨by decide, h.2.2.2.2.1, h.2.2.2.2.2.2.2.2.2 false⟩

-- ── Shared facts about stop/flushStart ──────────────────────────────────

/-- `flushStart` leaves the configuration and the frame counter alone and
never grows the frame buffer. -/
theorem flushStart_fst_fields (s : CaptureManager) :
    (flushStart s).1.opts = s.opts ∧
    (flushStart s).1.frameCount = s.frameCount ∧
    (flushStart s).1.lastCaptureTs = s.lastCaptureTs ∧
    (flushStart s).1.isActive = s.isActive ∧
    (flushStart s).1.frames.length ≤ s.frames.length := by
  by_cases hb : s.frames = [] ∧ s.taps = [] ∧ s.scrolls = [] ∧
      s.navigations = []
  · simp [flushStart, hb.1, hb.2.1, hb.2.2.1, hb.2.2.2]
  · by_cases hf : s.isFlushing = true
    · simp [flushStart, if_neg hb, if_pos hf]
    · simp [flushStart, if_neg hb, if_neg hf]

/-- `stop` only clears `isActive` and runs the flush prefix: the
configuration, frame counter and throttle clock survive, and the frame
buffer never grows. -/
theorem stop_fields (s : CaptureManager) :
    (stop s).opts = s.opts ∧
    (stop s).frameCount = s.frameCount ∧
    (stop s).lastCaptureTs = s.lastCaptureTs ∧
    (stop s).frames.length ≤ s.frames.length := by
  have h := flushStart_fst_fields { s with isActive := false }
  exact ⟨h.1, h.2.1, h.2.2.1, h.2.2.2.2⟩

-- ── C4: throttle is a silent no-op; captureImmediate skips only it ──────

/-- C4: a `capture()` call made while active, below the cap, and within
`throttleMs` of the last capture leaves the state completely unchanged;
under a throttle violation `capture()` never records a frame nor moves
the frame counter or throttle clock; and `captureImmediate` enforces
exactly the active-state and hard-cap rules, skipping only the throttle
check. -/
theorem C4_throttle_silent_noop :
    (∀ (s : CaptureManager) (now : Int) (shot : Option String),
      s.isActive = true → s.frameCount < s.opts.maxFrames →
      now - s.lastCaptureTs < s.opts.throttleMs →
      capture s now shot = s) ∧
    (∀ (s : CaptureManager) (now : Int) (shot : Option String),
      now - s.lastCaptureTs < s.opts.throttleMs →
      (capture s now shot).frameCount = s.frameCount ∧
      (capture s now shot).frames.length ≤ s.frames.length ∧
      (capture s now shot).lastCaptureTs = s.lastCaptureTs) ∧
    (∀ (s : CaptureManager) (now : Int) (shot : Option String),
      (s.isActive = false → captureImmediate s now shot = s) ∧
      (s.isActive = true → s.frameCount ≥ s.opts.maxFrames →
        captureImmediate s now shot = stop s) ∧
      (s.isActive = true → s.frameCount < s.opts.maxFrames →
        captureImmediate s now shot = doCapture s now shot)) := by
  refine ⟨?_, ?_, ?_⟩
  · intro s now shot hact hlt hthr
    simp [capture, hact, not_le.mpr hlt, hthr]
  · intro s now shot hthr
    by_cases hact : s.isActive = true
    · by_cases hcap : s.frameCount ≥ s.opts.maxFrames
      · have hstop := stop_fields s
        simp [capture, hact, if_pos hcap, hstop.2.1, hstop.2.2.1,
          hstop.2.2.2]
      · simp [capture, hact, hcap, hthr]
    · have hact' : s.isActive = false := by
        cases h : s.isActive
        · rfl
        · exact absurd h hact
      simp [capture, hact']
  · intro s now shot
    refine ⟨?_, ?_, ?_⟩
    · intro hact
      simp [captureImmediate, hact]
    · intro hact hcap
      simp [captureImmediate, hact, if_pos hcap]
    · intro hact hcap
      simp [captureImmediate, hact, not_le.mpr hcap]

/-- Witness for C4: concrete throttled call at `now = 50` against a last
capture at `5` with `throttleMs = 100`. -/
theorem C4_witness :
    capture { demoFlushState with lastCaptureTs := 5 } 50 (some "x") =
      { demoFlushState with lastCaptureTs := 5 } := by
  exact C4_throttle_silent_noop.1 { demoFlushState with lastCaptureTs := 5 }
    50 (some "x") (by decide) (by decide) (by decide)

-- ── C9: failed screenshots are compensated and swallowed ────────────────

/-- C9: when the screenshot inside a capture attempt fails (`shot =
none`), the frame count is decremented back to its pre-attempt value, no
frame is buffered, and the attempt still produces a normal state — the
failure is absorbed inside `_doCapture`'s `catch`, so `capture()` and
`captureImmediate()` resolve without error. -/
theorem C9_failure_compensation :
    ∀ (s : CaptureManager) (now : Int),
      (doCapture s now none).frameCount = s.frameCount ∧
      (doCapture s now none).frames = s.frames ∧
      (s.isActive = true → s.frameCount < s.opts.maxFrames →
        ¬(now - s.lastCaptureTs < s.opts.throttleMs) →
        (capture s now none).frameCount = s.frameCount ∧
        (capture s now none).frames = s.frames ∧
        (captureImmediate s now none).frameCount = s.frameCount ∧
        (captureImmediate s now none).frames = s.frames) := by
  intro s now
  refine ⟨by simp [doCapture], by simp [doCapture], ?_⟩
  intro hact hcap hthr
  simp [capture, captureImmediate, doCapture, hact, not_le.mpr hcap, hthr]

/-- Witness for C9: a failed attempt at `now = 500` from the demo state
keeps `frameCount` at its prior value and buffers nothing new. -/
theorem C9_witness :
    (capture demoFlushState 500 none).frameCount =
      demoFlushState.frameCount ∧
    (capture demoFlushState 500 none).frames = demoFlushState.frames := by
  have h := (C9_failure_compensation demoFlushState 500).2.2
    (by decide) (by decide) (by decide)
  exact ⟨h.1, h.2.1⟩

-- ── C8: tap normalisation ───────────────────────────────────────────────

/-- C8: `registerTap` is a no-op when inactive; when active with known
device dimensions and a tap that does not already carry both normalised
coordinates, the buffered event is the input tap extended with
`x / deviceWidth` and `y / deviceHeight` (values that land in `[0,1]²`
whenever the raw coordinates lie within the device bounds); in every
other case — both normalised coordinates already present, or device
dimensions unknown — the tap is appended untouched. -/
theorem C8_registerTap_normalisation :
    ∀ (s : CaptureManager) (tap : TapEvent) (now : Int),
      (s.isActive = false → registerTap s tap now = s) ∧
      (s.isActive = true →
        (∀ di : DeviceInfo, s.deviceInfo = some di →
          (tap.normalizedX.isSome && tap.normalizedY.isSome) = false →
          (registerTap s tap now).taps = s.taps ++ [{ tap with
              normalizedX := some (tap.x / di.deviceWidth)
              normalizedY := some (tap.y / di.deviceHeight) }] ∧
          (0 ≤ tap.x → tap.x ≤ di.deviceWidth → 0 < di.deviceWidth →
            0 ≤ tap.y → tap.y ≤ di.deviceHeight → 0 < di.deviceHeight →
            0 ≤ tap.x / di.deviceWidth ∧ tap.x / di.deviceWidth ≤ 1 ∧
            0 ≤ tap.y / di.deviceHeight ∧ tap.y / di.deviceHeight ≤ 1)) ∧
        (((tap.normalizedX.isSome && tap.normalizedY.isSome) = true ∨
            s.deviceInfo = none) →
          (registerTap s tap now).taps = s.taps ++ [tap])) := by
  intro s tap now
  refine ⟨?_, ?_⟩
  · intro hact
    simp [registerTap, hact]
  · intro hact
    refine ⟨?_, ?_⟩
    · intro di hdi hnorm
      refine ⟨?_, ?_⟩
      · simp [registerTap, notifyInteraction, hact, hdi, hnorm]
      · intro hx0 hxw hw hy0 hyh hh
        refine ⟨div_nonneg hx0 (le_of_lt hw), ?_,
          div_nonneg hy0 (le_of_lt hh), ?_⟩
        · exact (div_le_one hw).mpr hxw
        · exact (div_le_one hh).mpr hyh
    · intro hcase
      cases hcase with
      | inl hnorm => cases hdi : s.deviceInfo with
        | none => simp [registerTap, notifyInteraction, hact, hdi]
        | some di => simp [registerTap, notifyInteraction, hact, hdi, hnorm]
      | inr hdi => simp [registerTap, notifyInteraction, hact, hdi]

/-- A raw-coordinate tap used by the C8 witness. -/
def demoTap : TapEvent :=
  { x := 50, y := 25, normalizedX := none, normalizedY := none,
    screen := none, timestamp := 7 }

/-- The demo state with a 100×100 device registered. -/
def demoTapState : CaptureManager :=
  { demoFlushState with deviceInfo := some ⟨100, 100⟩ }

/-- Witness for C8: a raw-coordinate tap on a 100×100 device is buffered
with normalised coordinates `(50/100, 25/100)`. -/
theorem C8_witness :
    (registerTap demoTapState demoTap 7).taps =
      demoTapState.taps ++ [{ demoTap with
        normalizedX := some (demoTap.x / 100),
        normalizedY := some (demoTap.y / 100) }] := by
  exact ((C8_registerTap_normalisation demoTapState demoTap 7).2
    (by decide) |>.1 ⟨100, 100⟩ rfl (by decide)).1

-- ── C1: frameCount invariant over capture sequences ─────────────────────

/-- A single capture call never changes the configuration. -/
theorem runCaptureOp_opts (s : CaptureManager) (op : CaptureOp) :
    (runCaptureOp s op).opts = s.opts := by
  have hstop := stop_fields s
  cases op with
  | capture now shot =>
      simp only [runCaptureOp, capture]
      split
      · rfl
      · split
        · exact hstop.1
        · split
          · rfl
          · cases shot <;> simp [doCapture]
  | captureImmediate now shot =>
      simp only [runCaptureOp, captureImmediate]
      split
      · rfl
      · split
        · exact hstop.1
        · cases shot <;> simp [doCapture]

/-- A single capture call never decreases the frame count, and keeps it
under the cap when it was under the cap. -/
theorem runCaptureOp_frameCount (s : CaptureManager) (op : CaptureOp) :
    s.frameCount ≤ (runCaptureOp s op).frameCount ∧
    (s.frameCount ≤ s.opts.maxFrames →
      (runCaptureOp s op).frameCount ≤ s.opts.maxFrames) := by
  have hstop := stop_fields s
  cases op with
  | capture now shot =>
      simp only [runCaptureOp, capture]
      split
      · exact ⟨le_rfl, fun h => h⟩
      · split
        · rw [hstop.2.1]
          exact ⟨le_rfl, fun h => h⟩
        · split
          · exact ⟨le_rfl, fun h => h⟩
          · rename_i hinact hcap hthr
            have hlt : s.frameCount < s.opts.maxFrames := not_le.mp hcap
            cases shot <;> (simp [doCapture]; try omega)
  | captureImmediate now shot =>
      simp only [runCaptureOp, captureImmediate]
      split
      · exact ⟨le_rfl, fun h => h⟩
      · split
        · rw [hstop.2.1]
          exact ⟨le_rfl, fun h => h⟩
        · rename_i hinact hcap
          have hlt : s.frameCount < s.opts.maxFrames := not_le.mp hcap
          cases shot <;> (simp [doCapture]; try omega)

/-- C1: along any sequence of `capture()`/`captureImmediate()` calls the
observable `frameCount` stays at or below `maxFrames` after every call
(so in particular at the end of every prefix of the sequence), never
decreases across a call, and moves in lockstep with successful captures
only: a single attempt adds one to both the count and the frame buffer
on success and adds nothing to either on failure. -/
theorem C1_frameCount_invariant :
    (∀ (s : CaptureManager) (ops : List CaptureOp),
      s.frameCount ≤ s.opts.maxFrames →
      (runCaptureOps s ops).frameCount ≤ s.opts.maxFrames) ∧
    (∀ (s : CaptureManager) (op : CaptureOp),
      s.frameCount ≤ (runCaptureOp s op).frameCount) ∧
    (∀ (s : CaptureManager) (now : Int) (shot : Option String),
      (doCapture s now shot).frameCount =
        s.frameCount + (if shot.isSome then 1 else 0) ∧
      ((doCapture s now shot).frames.length : Int) =
        (s.frames.length : Int) + (if shot.isSome then 1 else 0)) := by
  refine ⟨?_, ?_, ?_⟩
  · intro s ops
    induction ops generalizing s with
    | nil => exact fun h => h
    | cons op rest ih =>
        intro h
        have hop := runCaptureOp_frameCount s op
        have hopts := runCaptureOp_opts s op
        have := ih (runCaptureOp s op) (by rw [hopts]; exact hop.2 h)
        rw [hopts] at this
        exact this
  · intro s op
    exact (runCaptureOp_frameCount s op).1
  · intro s now shot
    cases shot <;> simp [doCapture]

/-- Witness for C1: from a fresh active manager with `maxFrames = 2`, a
three-capture sequence (two successes, then an attempt at the cap) ends
with `frameCount = 2 ≤ maxFrames`. -/
theorem C1_witness :
    (runCaptureOps { opts := demoOpts, isActive := true }
        [.captureImmediate 10 (some "a"), .captureImmediate 20 (some "b"),
         .captureImmediate 30 (some "c")]).frameCount ≤
      demoOpts.maxFrames := by
  exact C1_frameCount_invariant.1 { opts := demoOpts, isActive := true }
    [.captureImmediate 10 (some "a"), .captureImmediate 20 (some "b"),
     .captureImmediate 30 (some "c")] (by decide)

-- ── C7: the sampling hash is order-insensitive ──────────────────────────

/-- Folding the char-code sum from any accumulator shifts the hash. -/
theorem hashUserId_foldl (l : List Nat) (a : Nat) :
    List.foldl (fun acc c => acc + c) a l = a + hashUserId l := by
  induction l generalizing a with
  | nil => simp [hashUserId]
  | cons x xs ih =>
      simp only [hashUserId, List.foldl_cons] at *
      rw [ih (a + x), ih (0 + x)]
      omega

/-- The char-code sum is invariant under permutation of the characters. -/
theorem hashUserId_perm {u v : List Nat} (h : u.Perm v) :
    hashUserId u = hashUserId v := by
  induction h with
  | nil => rfl
  | cons x hp ih =>
      simp only [hashUserId, List.foldl_cons]
      rw [hashUserId_foldl, hashUserId_foldl]
      omega
  | swap x y l =>
      simp only [hashUserId, List.foldl_cons]
      rw [hashUserId_foldl, hashUserId_foldl]
      omega
  | trans h1 h2 ih1 ih2 => exact ih1.trans ih2

/-- C7 counterexample: the hash inside `shouldSample` is a plain sum of
character codes, so it is order-INsensitive: `"ab"` (codes 97, 98) and
`"ba"` hash identically, and no two userIds that are rearrangements of
the same characters can hash differently — refuting the claim's
"order-sensitive accumulation ... there exist two userIds that are
rearrangements of the same characters whose hash values differ". -/
theorem C7_counterexample :
    hashUserId [97, 98] = hashUserId [98, 97] ∧
    ¬ ∃ u v : List Nat, u.Perm v ∧ hashUserId u ≠ hashUserId v := by
  refine ⟨rfl, ?_⟩
  rintro ⟨u, v, hperm, hne⟩
  exact hne (hashUserId_perm hperm)

/-- C7 (amended): `shouldSample` is a pure function of its arguments and
equals the reference definition — false whenever `rate ≤ 0`, true
whenever `rate ≥ 1`, and otherwise `(hash(userId) mod 100)/100 < rate`
— where the hash is a fixed but order-INsensitive sum of the character
codes, so any two userIds that are rearrangements of the same characters
sample identically. -/
theorem C7_shouldSample_reference :
    (∀ (u : List Nat) (r : ℚ), r ≤ 0 → shouldSample u r = false) ∧
    (∀ (u : List Nat) (r : ℚ), 1 ≤ r → shouldSample u r = true) ∧
    (∀ (u : List Nat) (r : ℚ), 0 < r → r < 1 →
      (shouldSample u r = true ↔
        ((hashUserId u % 100 : ℕ) : ℚ) / 100 < r)) ∧
    (∀ (u v : List Nat) (r : ℚ), u.Perm v →
      shouldSample u r = shouldSample v r) := by
  refine ⟨?_, ?_, ?_, ?_⟩
  · intro u r h
    simp [shouldSample, h]
  · intro u r h
    have h0 : ¬(r ≤ 0) := by linarith
    simp [shouldSample, h0, h]
  · intro u r h0 h1
    simp [shouldSample, not_le.mpr h0, not_le.mpr h1]
  · intro u v r hperm
    simp [shouldSample, hashUserId_perm hperm]

/-- Witness for C7's amended statement at concrete inputs. -/
theorem C7_witness :
    shouldSample [97] 0 = false ∧
    shouldSample [97] 1 = true ∧
    shouldSample [97, 98] (1 / 2) = shouldSample [98, 97] (1 / 2) := by
  exact ⟨C7_shouldSample_reference.1 [97] 0 le_rfl,
    C7_shouldSample_reference.2.1 [97] 1 le_rfl,
    C7_shouldSample_reference.2.2.2 [97, 98] [98, 97] (1 / 2)
      (by decide)⟩

-- ── Timeline engine: sortedness and search lemmas ───────────────────────

/-- The timestamp at index `i`, with the JS out-of-range read modelled by
the default frame (only ever used in range in the lemmas below). -/
def tsAt (frames : List CapturedFrame) (i : Nat) : Int :=
  (frames.getD i default).timestamp

/-- Frames sorted ascending (non-strictly) by timestamp. -/
abbrev FramesSorted (frames : List CapturedFrame) : Prop :=
  List.Pairwise (fun a b => a.timestamp ≤ b.timestamp) frames

/-- Frames sorted strictly ascending by timestamp. -/
abbrev FramesStrictSorted (frames : List CapturedFrame) : Prop :=
  List.Pairwise (fun a b => a.timestamp < b.timestamp) frames

/-- Strict sortedness implies sortedness. -/
theorem FramesStrictSorted.sorted {frames : List CapturedFrame}
    (h : FramesStrictSorted frames) : FramesSorted frames :=
  h.imp le_of_lt

/-- Timestamps are monotone along a sorted frame list. -/
theorem tsAt_mono {frames : List CapturedFrame} (hs : FramesSorted frames)
    {i j : Nat} (hij : i ≤ j) (hj : j < frames.length) :
    tsAt frames i ≤ tsAt frames j := by
  rcases Nat.eq_or_lt_of_le hij with rfl | hlt
  · exact le_refl _
  · have hi : i < frames.length := lt_trans hlt hj
    have := List.pairwise_iff_getElem.mp hs i j hi hj hlt
    rw [tsAt, tsAt, List.getD_eq_getElem _ _ hi, List.getD_eq_getElem _ _ hj]
    exact this

/-- Timestamps are strictly monotone along a strictly sorted frame
list. -/
theorem tsAt_strict_mono {frames : List CapturedFrame}
    (hs : FramesStrictSorted frames) {i j : Nat} (hij : i < j)
    (hj : j < frames.length) : tsAt frames i < tsAt frames j := by
  have hi : i < frames.length := lt_trans hij hj
  have := List.pairwise_iff_getElem.mp hs i j hi hj hij
  rw [tsAt, tsAt, List.getD_eq_getElem _ _ hi, List.getD_eq_getElem _ _ hj]
  exact this

/-- The binary-search loop stays within its initial window. -/
theorem lbLoop_bounds (frames : List CapturedFrame) (t : Int)
    (low high : Nat) (h : low ≤ high) :
    low ≤ lbLoop frames t low high ∧ lbLoop frames t low high ≤ high := by
  rw [lbLoop]
  split
  · rename_i hlt
    split
    · have := lbLoop_bounds frames t ((low + high) / 2 + 1) high (by omega)
      omega
    · have := lbLoop_bounds frames t low ((low + high) / 2) (by omega)
      omega
  · omega
termination_by high - low

/-- Characterisation of the binary-search loop on a sorted window: every
index strictly below the result has a timestamp `< t`, and unless the
result is pinned at `high`, its own timestamp is `≥ t`. -/
theorem lbLoop_char (frames : List CapturedFrame) (t : Int)
    (hs : FramesSorted frames) (low high : Nat) (hlh : low ≤ high)
    (hhl : high < frames.length) :
    (∀ j, low ≤ j → j < lbLoop frames t low high → tsAt frames j < t) ∧
    (lbLoop frames t low high < high →
      t ≤ tsAt frames (lbLoop frames t low high)) := by
  rw [lbLoop]
  split
  · rename_i hlt
    split
    · rename_i hts
      have ih := lbLoop_char frames t hs ((low + high) / 2 + 1) high
        (by omega) hhl
      have hmid : (low + high) / 2 < frames.length := by omega
      refine ⟨?_, ih.2⟩
      intro j hlj hjr
      by_cases hjm : j ≤ (low + high) / 2
      · exact lt_of_le_of_lt (tsAt_mono hs hjm hmid) hts
      · exact ih.1 j (by omega) hjr
    · rename_i hts
      have ih := lbLoop_char frames t hs low ((low + high) / 2)
        (by omega) (by omega)
      have hb := lbLoop_bounds frames t low ((low + high) / 2) (by omega)
      refine ⟨ih.1, ?_⟩
      intro hrh
      rcases Nat.eq_or_lt_of_le hb.2 with heq | hltm
      · rw [heq]
        exact not_lt.mp hts
      · exact ih.2 hltm
  · rename_i hnlt
    have : low = high := by omega
    exact ⟨fun j hlj hjr => by omega, fun h => by omega⟩
termination_by high - low

/-- When the spec-side scan finds an index, it is the least index whose
timestamp is `≥ t`. -/
theorem specLeastGeIndex_some {frames : List CapturedFrame} {t : Int}
    {i : Nat} (h : specLeastGeIndex frames t = some i) :
    i < frames.length ∧ t ≤ tsAt frames i ∧ ∀ j < i, tsAt frames j < t := by
  induction frames generalizing i with
  | nil => simp [specLeastGeIndex] at h
  | cons f rest ih =>
      by_cases hf : t ≤ f.timestamp
      · simp [specLeastGeIndex, hf] at h
        subst h
        exact ⟨Nat.succ_pos _, by simpa [tsAt] using hf, by omega⟩
      · simp [specLeastGeIndex, hf] at h
        obtain ⟨i', hi', rfl⟩ := h
        obtain ⟨h1, h2, h3⟩ := ih hi'
        refine ⟨by simpa using h1, by simpa [tsAt] using h2, ?_⟩
        intro j hj
        cases j with
        | zero => simpa [tsAt] using not_le.mp hf
        | succ j' =>
            have := h3 j' (by omega)
            simpa [tsAt] using this

/-- When the spec-side scan finds nothing, every timestamp is `< t`. -/
theorem specLeastGeIndex_none {frames : List CapturedFrame} {t : Int}
    (h : specLeastGeIndex frames t = none) :
    ∀ j < frames.length, tsAt frames j < t := by
  induction frames with
  | nil => intro j hj; simp at hj
  | cons f rest ih =>
      by_cases hf : t ≤ f.timestamp
      · simp [specLeastGeIndex, hf] at h
      · simp [specLeastGeIndex, hf] at h
        intro j hj
        cases j with
        | zero => simpa [tsAt] using not_le.mp hf
        | succ j' =>
            have := ih h j' (by simpa using hj)
            simpa [tsAt] using this

/-- On a sorted non-empty list the binary-search loop over the full
window computes the spec's lower bound. -/
theorem lbLoop_eq_specLowerBound (frames : List CapturedFrame) (t : Int)
    (hs : FramesSorted frames) (hne : frames ≠ []) :
    lbLoop frames t 0 (frames.length - 1) = specLowerBound frames t := by
  have hlen : 0 < frames.length := List.length_pos.mpr hne
  have hb := lbLoop_bounds frames t 0 (frames.length - 1) (Nat.zero_le _)
  have hc := lbLoop_char frames t hs 0 (frames.length - 1) (Nat.zero_le _)
    (by omega)
  cases hsp : specLeastGeIndex frames t with
  | none =>
      have hall := specLeastGeIndex_none hsp
      rw [specLowerBound, hsp]
      by_contra hne'
      have hrlt : lbLoop frames t 0 (frames.length - 1) <
          frames.length - 1 := by
        rcases Nat.lt_or_ge (lbLoop frames t 0 (frames.length - 1))
          (frames.length - 1) with h | h
        · exact h
        · exact absurd (le_antisymm hb.2 h) (by simpa using hne')
      have h1 := hc.2 hrlt
      have h2 := hall (lbLoop frames t 0 (frames.length - 1)) (by omega)
      omega
  | some i =>
      obtain ⟨hi, hti, hleast⟩ := specLeastGeIndex_some hsp
      rw [specLowerBound, hsp]
      simp only [Option.getD_some]
      have h1 : ¬ i < lbLoop frames t 0 (frames.length - 1) := by
        intro hlt
        exact absurd (hc.1 i (Nat.zero_le _) hlt) (not_lt.mpr hti)
      have h2 : ¬ lbLoop frames t 0 (frames.length - 1) < i := by
        intro hlt
        have hts_r := hleast _ hlt
        have hrhigh : lbLoop frames t 0 (frames.length - 1) <
            frames.length - 1 := by omega
        have := hc.2 hrhigh
        omega
      omega

-- ── C10: nearest-frame lookup is total and in bounds on non-empty input ─

/-- C10: for every non-empty frame list — sorted or not — the lookup
returns an index within `[0, frames.length - 1]`; on the empty list the
final frame reads miss (a `TypeError` in the JavaScript), modelled as
`none`, so non-emptiness is a required precondition. -/
theorem C10_findFrame_in_bounds :
    (∀ (frames : List CapturedFrame) (t : Int), frames ≠ [] →
      ∃ i, findFrameIndexForTimestamp frames t = some i ∧
        i ≤ frames.length - 1) ∧
    (∀ t : Int, findFrameIndexForTimestamp [] t = none) := by
  constructor
  · intro frames t hne
    have hlen : 0 < frames.length := List.length_pos.mpr hne
    have hb := lbLoop_bounds frames t 0 (frames.length - 1) (Nat.zero_le _)
    have hrlt : lbLoop frames t 0 (frames.length - 1) < frames.length := by
      omega
    have hplt : lbLoop frames t 0 (frames.length - 1) - 1 <
        frames.length := by omega
    simp only [findFrameIndexForTimestamp]
    rw [List.getElem?_eq_getElem hrlt, List.getElem?_eq_getElem hplt]
    refine ⟨_, rfl, ?_⟩
    split <;> omega
  · intro t
    simp [findFrameIndexForTimestamp, lbLoop]

/-- Witness for C10 on an unsorted two-frame list. -/
theorem C10_witness :
    (∃ i, findFrameIndexForTimestamp [⟨"b", 9⟩, ⟨"a", 3⟩] 5 = some i ∧
      i ≤ ([⟨"b", 9⟩, ⟨"a", 3⟩] : List CapturedFrame).length - 1) ∧
    findFrameIndexForTimestamp [] 5 = none :=
  ⟨C10_findFrame_in_bounds.1 [⟨"b", 9⟩, ⟨"a", 3⟩] 5 (by decide),
   C10_findFrame_in_bounds.2 5⟩

-- ── C5: nearest-frame lookup matches the specified procedure ────────────

/-- The spec's worked example: three frames at timestamps 100, 200, 400. -/
def demoTimelineFrames : List CapturedFrame :=
  [⟨"f0", 100⟩, ⟨"f1", 200⟩, ⟨"f2", 400⟩]

/-- C5: on a timestamp-sorted non-empty frame list the lookup equals the
spec's procedure — lower-bound search, then the numerically closer of
the candidate and its predecessor with ties to the predecessor; it
returns 0 for any `t` before the first timestamp and the last index for
any `t` after the last; and on timestamps `[100, 200, 400]` it returns
index 1 for `t = 260` and index 2 for `t = 310`. -/
theorem C5_findFrame_matches_reference :
    (∀ (frames : List CapturedFrame) (t : Int),
      FramesStrictSorted frames → frames ≠ [] →
      findFrameIndexForTimestamp frames t =
        some (specNearestIndex frames t)) ∧
    (∀ (frames : List CapturedFrame) (t : Int),
      FramesStrictSorted frames → frames ≠ [] →
      (t < tsAt frames 0 → findFrameIndexForTimestamp frames t = some 0) ∧
      (tsAt frames (frames.length - 1) < t →
        findFrameIndexForTimestamp frames t =
          some (frames.length - 1))) ∧
    findFrameIndexForTimestamp demoTimelineFrames 260 = some 1 ∧
    findFrameIndexForTimestamp demoTimelineFrames 310 = some 2 := by
  have main : ∀ (frames : List CapturedFrame) (t : Int),
      FramesSorted frames → frames ≠ [] →
      findFrameIndexForTimestamp frames t =
        some (specNearestIndex frames t) := by
    intro frames t hs hne
    have hlen : 0 < frames.length := List.length_pos.mpr hne
    have heq := lbLoop_eq_specLowerBound frames t hs hne
    have hb := lbLoop_bounds frames t 0 (frames.length - 1) (Nat.zero_le _)
    have hc : specLowerBound frames t < frames.length := by omega
    have hp : specLowerBound frames t - 1 < frames.length := by omega
    simp only [findFrameIndexForTimestamp, heq]
    rw [List.getElem?_eq_getElem hc, List.getElem?_eq_getElem hp]
    simp only [specNearestIndex]
    rw [List.getD_eq_getElem _ _ hp, List.getD_eq_getElem _ _ hc]
  refine ⟨fun frames t hss hne => main frames t hss.sorted hne, ?_, ?_, ?_⟩
  · intro frames t hss hne
    have hs := hss.sorted
    have hlen : 0 < frames.length := List.length_pos.mpr hne
    constructor
    · intro hbefore
      rw [main frames t hs hne]
      have h0 : specLowerBound frames t = 0 := by
        cases frames with
        | nil => exact absurd rfl hne
        | cons f rest =>
            have hf : t ≤ f.timestamp :=
              le_of_lt (by simpa [tsAt] using hbefore)
            simp [specLowerBound, specLeastGeIndex, hf]
      simp [specNearestIndex, h0]
    · intro hafter
      rw [main frames t hs hne]
      have hnone : specLeastGeIndex frames t = none := by
        cases hsp : specLeastGeIndex frames t with
        | none => rfl
        | some i =>
            obtain ⟨hi, hti, -⟩ := specLeastGeIndex_some hsp
            have : tsAt frames i ≤ tsAt frames (frames.length - 1) :=
              tsAt_mono hs (by omega) (by omega)
            omega
      have hcval : specLowerBound frames t = frames.length - 1 := by
        simp [specLowerBound, hnone]
      rcases Nat.lt_or_ge 1 frames.length with h2 | h2
      · have hplt : frames.length - 2 < frames.length - 1 := by omega
        have hpts : tsAt frames (frames.length - 2) <
            tsAt frames (frames.length - 1) :=
          tsAt_strict_mono hss hplt (by omega)
        have hcond :
            ¬(((frames.getD (frames.length - 1 - 1) default).timestamp - t).natAbs ≤
              ((frames.getD (frames.length - 1) default).timestamp - t).natAbs) := by
          have h1 : frames.length - 1 - 1 = frames.length - 2 := by omega
          rw [h1]
          simp only [tsAt] at hpts hafter
          omega
        simp only [specNearestIndex, hcval]
        rw [if_neg hcond]
      · have h1 : frames.length = 1 := by omega
        simp [specNearestIndex, hcval, h1]
  · rw [main demoTimelineFrames 260 (by decide) (by decide)]
    decide
  · rw [main demoTimelineFrames 310 (by decide) (by decide)]
    decide

/-- Witness for C5 at the spec's worked example. -/
theorem C5_witness :
    findFrameIndexForTimestamp demoTimelineFrames 260 =
      some (specNearestIndex demoTimelineFrames 260) ∧
    specNearestIndex demoTimelineFrames 260 = 1 :=
  ⟨C5_findFrame_matches_reference.1 demoTimelineFrames 260 (by decide)
      (by decide),
   by decide⟩

-- ── C6: playback loop ───────────────────────────────────────────────────

/-- The playback scan never moves backwards. -/
theorem advanceIndex_ge (frames : List CapturedFrame) (baseTs : Int)
    (elapsed : ℚ) (i : Nat) :
    i ≤ advanceIndex frames baseTs elapsed i := by
  rw [advanceIndex]
  split
  · have := advanceIndex_ge frames baseTs elapsed (i + 1)
    omega
  · omega
termination_by frames.length - i

/-- The playback scan stays in bounds. -/
theorem advanceIndex_lt (frames : List CapturedFrame) (baseTs : Int)
    (elapsed : ℚ) (i : Nat) (h : i < frames.length) :
    advanceIndex frames baseTs elapsed i < frames.length := by
  rw [advanceIndex]
  split
  · rename_i hcond
    exact advanceIndex_lt frames baseTs elapsed (i + 1) hcond.1
  · exact h
termination_by frames.length - i

/-- If the start frame is within the elapsed virtual time, so is the
frame the scan lands on. -/
theorem advanceIndex_sat (frames : List CapturedFrame) (baseTs : Int)
    (elapsed : ℚ) (i : Nat)
    (h0 : ((tsAt frames i - baseTs : Int) : ℚ) ≤ elapsed) :
    ((tsAt frames (advanceIndex frames baseTs elapsed i) - baseTs :
        Int) : ℚ) ≤ elapsed := by
  rw [advanceIndex]
  split
  · rename_i hcond
    exact advanceIndex_sat frames baseTs elapsed (i + 1)
      (by simpa [tsAt] using hcond.2)
  · exact h0
termination_by frames.length - i

/-- The scan stops exactly when the next frame is missing or beyond the
elapsed virtual time. -/
theorem advanceIndex_stop (frames : List CapturedFrame) (baseTs : Int)
    (elapsed : ℚ) (i : Nat) :
    ¬(advanceIndex frames baseTs elapsed i + 1 < frames.length ∧
      (((frames.getD (advanceIndex frames baseTs elapsed i + 1)
          default).timestamp - baseTs : Int) : ℚ) ≤ elapsed) := by
  rw [advanceIndex]
  split
  · exact advanceIndex_stop frames baseTs elapsed (i + 1)
  · rename_i hcond
    exact hcond
termination_by frames.length - i

/-- On sorted frames the scan result dominates every index whose offset
from the base is within the elapsed virtual time. -/
theorem advanceIndex_max (frames : List CapturedFrame) (baseTs : Int)
    (elapsed : ℚ) (i : Nat) (hs : FramesSorted frames) :
    ∀ k, k < frames.length →
      ((tsAt frames k - baseTs : Int) : ℚ) ≤ elapsed →
      k ≤ advanceIndex frames baseTs elapsed i ∨ k < i := by
  intro k hk hke
  by_cases hkj : k ≤ advanceIndex frames baseTs elapsed i
  · exact Or.inl hkj
  · by_cases hki : k < i
    · exact Or.inr hki
    · exfalso
      have hjk : advanceIndex frames baseTs elapsed i + 1 ≤ k := by omega
      have hstop := advanceIndex_stop frames baseTs elapsed i
      have hnext : advanceIndex frames baseTs elapsed i + 1 <
          frames.length := by omega
      have hmono : tsAt frames (advanceIndex frames baseTs elapsed i + 1) ≤
          tsAt frames k := tsAt_mono hs hjk hk
      have hgt : ¬(((frames.getD (advanceIndex frames baseTs elapsed i + 1)
          default).timestamp - baseTs : Int) : ℚ) ≤ elapsed := by
        intro hle
        exact hstop ⟨hnext, hle⟩
      apply hgt
      calc (((frames.getD (advanceIndex frames baseTs elapsed i + 1)
              default).timestamp - baseTs : Int) : ℚ)
          ≤ ((tsAt frames k - baseTs : Int) : ℚ) := by
            simp only [tsAt] at hmono ⊢
            exact_mod_cast sub_le_sub_right hmono baseTs
        _ ≤ elapsed := hke

/-- The spec's worked example: playback timestamps 0, 500, 1200. -/
def demoPlaybackFrames : List CapturedFrame :=
  [⟨"p0", 0⟩, ⟨"p1", 500⟩, ⟨"p2", 1200⟩]

/-- C6: in one `loop()` invocation at real instant `now`, the elapsed
virtual time is `(now − startTime) × rate`; on sorted frames started at
`startIndex`, the displayed index is the last index whose offset from
the start frame's timestamp is within that elapsed time; the scan can
only move forward from the index it starts at; when it reaches the last
frame the index is pinned there and playback stops (otherwise another
iteration is scheduled); and on timestamps `[0, 500, 1200]` at rate 1
starting at frame 0, the displayed index after 600 ms is 1 (still
playing) and after 1300 ms is 2 with playback stopped. -/
theorem C6_playback_loop :
    (∀ (frames : List CapturedFrame) (startIndex : Nat)
        (rate startTime now : ℚ),
      FramesSorted frames → startIndex < frames.length →
      0 ≤ (now - startTime) * rate →
      ∀ j, j = advanceIndex frames (tsAt frames startIndex)
          ((now - startTime) * rate) startIndex →
        startIndex ≤ j ∧ j < frames.length ∧
        ((tsAt frames j - tsAt frames startIndex : Int) : ℚ) ≤
          (now - startTime) * rate ∧
        (∀ k, k < frames.length →
          ((tsAt frames k - tsAt frames startIndex : Int) : ℚ) ≤
            (now - startTime) * rate → k ≤ j) ∧
        loopStep frames startIndex rate startTime now =
          (if j < frames.length - 1 then ⟨j, true⟩
           else ⟨frames.length - 1, false⟩)) ∧
    (∀ (frames : List CapturedFrame) (baseTs : Int) (elapsed : ℚ)
        (i : Nat), i ≤ advanceIndex frames baseTs elapsed i) ∧
    loopStep demoPlaybackFrames 0 1 0 600 = ⟨1, true⟩ ∧
    loopStep demoPlaybackFrames 0 1 0 1300 = ⟨2, false⟩ := by
  refine ⟨?_, advanceIndex_ge, ?_, ?_⟩
  · intro frames startIndex rate startTime now hs hstart he j hj
    subst hj
    refine ⟨advanceIndex_ge _ _ _ _,
      advanceIndex_lt _ _ _ _ hstart, ?_, ?_, ?_⟩
    · exact advanceIndex_sat frames (tsAt frames startIndex)
        ((now - startTime) * rate) startIndex (by simpa using he)
    · intro k hk hke
      rcases advanceIndex_max frames (tsAt frames startIndex)
          ((now - startTime) * rate) startIndex hs k hk hke with h | h
      · exact h
      · exact le_trans (le_of_lt h) (advanceIndex_ge _ _ _ _)
    · simp only [loopStep, tsAt]
  · have hadv : advanceIndex demoPlaybackFrames
        ((demoPlaybackFrames.getD 0 default).timestamp)
        ((600 - 0) * 1) 0 = 1 := by
      rw [advanceIndex, if_pos (by norm_num [demoPlaybackFrames]),
        advanceIndex, if_neg (by norm_num [demoPlaybackFrames])]
    simp only [loopStep, hadv]
    norm_num [demoPlaybackFrames]
  · have hadv : advanceIndex demoPlaybackFrames
        ((demoPlaybackFrames.getD 0 default).timestamp)
        ((1300 - 0) * 1) 0 = 2 := by
      rw [advanceIndex, if_pos (by norm_num [demoPlaybackFrames]),
        advanceIndex, if_pos (by norm_num [demoPlaybackFrames]),
        advanceIndex, if_neg (by norm_num [demoPlaybackFrames])]
    simp only [loopStep, hadv]
    norm_num [demoPlaybackFrames]

/-- Witness for C6 at the worked example: after 600 ms of a rate-1
playback from frame 0, the characterisation instantiates with `j = 1`. -/
theorem C6_witness :
    loopStep demoPlaybackFrames 0 1 0 600 =
      (if (1 : Nat) < demoPlaybackFrames.length - 1 then ⟨1, true⟩
       else ⟨demoPlaybackFrames.length - 1, false⟩) := by
  have hadv : (1 : Nat) = advanceIndex demoPlaybackFrames
      (tsAt demoPlaybackFrames 0) ((600 - 0) * 1) 0 := by
    rw [advanceIndex, if_pos (by norm_num [demoPlaybackFrames, tsAt]),
      advanceIndex, if_neg (by norm_num [demoPlaybackFrames, tsAt])]
  exact (C6_playback_loop.1 demoPlaybackFrames 0 1 0 600
    (by decide) (by decide) (by norm_num) 1 hadv).2.2.2.2
